import Mathlib

/-!
Verification development for the infoviz-g17 data-visualization app.
The pure data-transformation layer of the repository is shallowly embedded:
numbers are modelled as rationals, JS `null`/`undefined`/thrown errors as
`Option`, CSV rows as structures of optional string fields, and the d3
`Map`-based grouping as an insertion-ordered association of keys to the
rows that carry them.
-/

namespace InfoViz

/-! ## Model of the JavaScript `Number(string)` conversion

`jsNumber s = some q` models `Number(s)` evaluating to the finite number
`q`; `jsNumber s = none` models `Number(s)` being `NaN` or non-finite
(`Infinity`), the two cases the code always collapses via
`Number.isFinite`.  Decimal literals with optional sign, fraction and
exponent are parsed; the whitespace-only string converts to `0` as in JS. -/

/-- The character class removed by `String.prototype.trim` (ASCII whitespace
plus NBSP and BOM; rarer Unicode spaces are not modelled). -/
def isJsSpace (c : Char) : Bool :=
  c = ' ' ∨ c = '\t' ∨ c = '\n' ∨ c = '\r' ∨ c = '\x0b' ∨ c = '\x0c' ∨
    c = '\u00A0' ∨ c = '\uFEFF'

/-- Model of JS `s.trim()`: drop the whitespace from both ends. -/
def jsTrim (s : String) : String :=
  String.mk (((s.toList.dropWhile isJsSpace).reverse.dropWhile isJsSpace).reverse)

/-- Model of JS `s.slice(0, 4)`: the first four UTF-16 units (characters of
the basic plane here). -/
def jsSlice4 (s : String) : String :=
  String.mk (s.toList.take 4)

/-- Value of a non-empty all-digit character list, `none` otherwise. -/
def digitsVal (cs : List Char) : Option Nat :=
  if cs ≠ [] ∧ cs.all Char.isDigit then
    some (cs.foldl (fun a c => a * 10 + (c.toNat - 48)) 0)
  else none

/-- Mantissa `[int].[frac]` as a rational; at least one digit required. -/
def mantissaVal (cs : List Char) : Option ℚ :=
  let intPart := cs.takeWhile (· ≠ '.')
  let rest := cs.dropWhile (· ≠ '.')
  match rest with
  | [] =>
    (digitsVal intPart).map (fun n => (n : ℚ))
  | _ :: fracPart =>
    if fracPart.any (· = '.') then none
    else if intPart = [] ∧ fracPart = [] then none
    else if intPart.all Char.isDigit ∧ fracPart.all Char.isDigit then
      some ((intPart.foldl (fun a c => a * 10 + (c.toNat - 48)) 0 : ℚ)
        + (fracPart.foldl (fun a c => a * 10 + (c.toNat - 48)) 0 : ℚ)
          / (10 : ℚ) ^ fracPart.length)
    else none

/-- Signed decimal with optional exponent, e.g. `-12.5e3`; the sign is
applied by negation. -/
def signedNumberVal (cs : List Char) : Option ℚ :=
  let (neg, body) : Bool × List Char :=
    match cs with
    | '-' :: rest => (true, rest)
    | '+' :: rest => (false, rest)
    | _ => (false, cs)
  let mant := body.takeWhile (fun c => c ≠ 'e' ∧ c ≠ 'E')
  let expPart := body.dropWhile (fun c => c ≠ 'e' ∧ c ≠ 'E')
  match expPart with
  | [] => (mantissaVal mant).map (fun m => if neg then -m else m)
  | _ :: ecs =>
    let (eneg, edigits) : Bool × List Char :=
      match ecs with
      | '-' :: rest => (true, rest)
      | '+' :: rest => (false, rest)
      | _ => (false, ecs)
    match mantissaVal mant, digitsVal edigits with
    | some m, some e =>
      some ((if neg then -m else m) *
        (10 : ℚ) ^ (if eneg then -(e : Int) else (e : Int)))
    | _, _ => none

/-- Model of JS `Number(s)` restricted to the finite outcomes: whitespace
trims away, the empty string converts to `0`, decimal literals to their
value, and everything else (including `Infinity`) to `none`. -/
def jsNumber (s : String) : Option ℚ :=
  let t := jsTrim s
  if t = "" then some 0 else signedNumberVal t.toList

/-! ## `src/app/lib/math.ts` -/

/-- `maxElement` from `math.ts`: `data.reduce((a, b) => sel a > sel b ? a : b)`.
`none` models the `TypeError` that `reduce` throws on an empty array with no
initial value. -/
def maxElement? {α β : Type} [LinearOrder β] (data : List α) (selector : α → β) :
    Option α :=
  match data with
  | [] => none
  | x :: xs => some (xs.foldl (fun a b => if selector a > selector b then a else b) x)

/-- `minElement` from `math.ts`: `data.reduce((a, b) => sel a <= sel b ? a : b)`;
`none` models the `TypeError` on the empty array. -/
def minElement? {α β : Type} [LinearOrder β] (data : List α) (selector : α → β) :
    Option α :=
  match data with
  | [] => none
  | x :: xs => some (xs.foldl (fun a b => if selector a ≤ selector b then a else b) x)

/-! ## `src/app/lib/emissions.ts`: data model -/

/-- One year of emission data for a country (`YearPoint`). -/
structure YearPoint where
  year : ℚ
  total : ℚ
  coal : ℚ
  oil : ℚ
  gas : ℚ
  cement : ℚ
  flaring : ℚ
  other : ℚ
  perCapita : ℚ
  deriving DecidableEq, Repr

/-- `CountrySeries` from `emissions.ts`. -/
structure CountrySeries where
  iso3 : String
  country : String
  points : List YearPoint
  deriving DecidableEq, Repr

/-- `SourceKey` from `emissions.ts`. -/
inductive SourceKey where
  | Coal | Oil | Gas | Cement | Flaring | Other
  deriving DecidableEq, Repr

/-- `SourceShare` from `emissions.ts`. -/
structure SourceShare where
  source : SourceKey
  value : ℚ
  share : ℚ
  deriving DecidableEq, Repr

/-- `toNum` from `emissions.ts`: `Number(v)`, with any non-finite result
coerced to `0`; `none` models `undefined` (a missing CSV column), for which
`Number(undefined)` is `NaN`, hence `0`. -/
def toNum (v : Option String) : ℚ :=
  match v with
  | none => 0
  | some s => (jsNumber s).getD 0

/-- A raw CSV row of `GCB2022v27_MtCO2_flat.csv` as handed over by `d3.csv`:
each referenced column is a string when present, `none` when absent. -/
structure EmRow where
  iso3Raw : Option String
  countryRaw : Option String
  yearRaw : Option String
  totalRaw : Option String
  coalRaw : Option String
  oilRaw : Option String
  gasRaw : Option String
  cementRaw : Option String
  flaringRaw : Option String
  otherRaw : Option String
  perCapitaRaw : Option String
  deriving DecidableEq, Repr

/-- The intermediate record built per kept row inside `loadEmissions`. -/
structure EmTmp where
  iso3 : String
  country : String
  point : YearPoint
  deriving DecidableEq, Repr

/-- The row-cleaning step of `loadEmissions`: trim the iso code and country
name, coerce the year, and drop the row (`none`) when any of the three is
falsy. -/
def cleanEmRow (r : EmRow) : Option EmTmp :=
  let iso3 := jsTrim (r.iso3Raw.getD "")
  let country := jsTrim (r.countryRaw.getD "")
  let year := toNum r.yearRaw
  if iso3 = "" ∨ country = "" ∨ year = 0 then none
  else some
    { iso3 := iso3
      country := country
      point :=
        { year := year
          total := toNum r.totalRaw
          coal := toNum r.coalRaw
          oil := toNum r.oilRaw
          gas := toNum r.gasRaw
          cement := toNum r.cementRaw
          flaring := toNum r.flaringRaw
          other := toNum r.otherRaw
          perCapita := toNum r.perCapitaRaw } }

/-! ## Grouping: model of `d3.group`

`d3.group(l, key)` returns a `Map` whose keys appear in order of first
occurrence and whose value for `k` is the sub-array of elements with key
`k`, in their original order. -/

/-- Keys of a list in order of first occurrence. -/
def firstOccKeys {α κ : Type} [DecidableEq κ] (key : α → κ) : List α → List κ
  | [] => []
  | x :: xs => key x :: (firstOccKeys key xs).filter (· ≠ key x)

/-- `d3.group l key` as an insertion-ordered association list. -/
def groupByKey {α κ : Type} [DecidableEq κ] (key : α → κ) (l : List α) :
    List (κ × List α) :=
  (firstOccKeys key l).map (fun k => (k, l.filter (fun x => key x = k)))

/-! ## `loadEmissions` and its helpers

The JS loader fetches the CSV; the rows it receives are the input here
(the spec treats the fetch wrappers as external data sources).  `Array
.prototype.sort` is stable and, for the consistent comparators used here,
agrees with any stable sort; it is modelled by `List.insertionSort`.
`localeCompare` is a browser/ICU function external to the repository; it
is idealized as the lexicographic order on strings. -/

/-- The point comparator `(a, b) => a.year - b.year` as a relation. -/
def yearLe (a b : YearPoint) : Prop := a.year ≤ b.year

instance : DecidableRel yearLe := fun a b => inferInstanceAs (Decidable (a.year ≤ b.year))

instance : IsTotal YearPoint yearLe := ⟨fun a b => le_total a.year b.year⟩

instance : IsTrans YearPoint yearLe := ⟨fun _ _ _ h h' => le_trans h h'⟩

/-- The series comparator `(a, b) => a.country.localeCompare(b.country)`. -/
def countryLe (a b : CountrySeries) : Prop := a.country ≤ b.country

instance : DecidableRel countryLe := fun a b => inferInstanceAs (Decidable (a.country ≤ b.country))

instance : IsTotal CountrySeries countryLe := ⟨fun a b => le_total a.country b.country⟩

instance : IsTrans CountrySeries countryLe := ⟨fun _ _ _ h h' => le_trans h h'⟩

/-- `loadEmissions` from `emissions.ts`, applied to the parsed CSV rows:
clean and filter the rows, group them by iso3 code, build one
`CountrySeries` per group with its points sorted by year and its country
name taken from the group's first row (`arr[0]?.country ?? iso3`), and
sort the series by country name. -/
def loadEmissions (rows : List EmRow) : List CountrySeries :=
  let cleaned := rows.filterMap cleanEmRow
  let grouped := groupByKey (fun d => d.iso3) cleaned
  let series := grouped.map (fun g =>
    { iso3 := g.1
      country := match g.2 with | [] => g.1 | h :: _ => h.country
      points := List.insertionSort yearLe (g.2.map (fun d => d.point)) })
  List.insertionSort countryLe series

/-- `byIso3` from `emissions.ts`: first series with the given code, else
`none` (modelling `?? null`). -/
def byIso3 (data : List CountrySeries) (iso3 : String) : Option CountrySeries :=
  data.find? (fun d => d.iso3 = iso3)

/-- `latestYear` from `emissions.ts`: year of the last point, `none` on the
empty list. -/
def latestYear (points : List YearPoint) : Option ℚ :=
  match points.getLast? with
  | none => none
  | some p => some p.year

/-- `sourceSharesForYear` from `emissions.ts`: find the point of the given
year; build the six source entries; divide by `p.total`, falling back to
the entries' sum when `p.total` is falsy (`||`), and emit share `0` when
the chosen total is not positive. -/
def sourceSharesForYear (points : List YearPoint) (year : ℚ) : List SourceShare :=
  match points.find? (fun x => x.year = year) with
  | none => []
  | some p =>
    let entries : List (SourceKey × ℚ) :=
      [(SourceKey.Coal, p.coal), (SourceKey.Oil, p.oil), (SourceKey.Gas, p.gas),
       (SourceKey.Cement, p.cement), (SourceKey.Flaring, p.flaring),
       (SourceKey.Other, p.other)]
    let total := if p.total ≠ 0 then p.total else entries.foldl (fun s e => s + e.2) 0
    entries.map (fun e =>
      { source := e.1, value := e.2, share := if total > 0 then e.2 / total else 0 })

/-! ## `src/app/lib/worldBank.ts` -/

/-- `WbPoint` from `worldBank.ts`; `Option` models `number | null`. -/
structure WbPoint where
  year : ℚ
  population : Option ℚ
  gdp : Option ℚ
  co2 : Option ℚ
  renewableShare : Option ℚ
  electricityAccess : Option ℚ
  deriving DecidableEq, Repr

/-- `WbSeries` from `worldBank.ts`. -/
structure WbSeries where
  country : String
  points : List WbPoint
  deriving DecidableEq, Repr

/-- `toNumOrNull` from `worldBank.ts`: `null`/`undefined` give `null`; the
trimmed string gives `null` when empty, `"NA"` or `"NaN"`, otherwise
`Number(s)` when finite and `null` when not. -/
def toNumOrNull (v : Option String) : Option ℚ :=
  match v with
  | none => none
  | some s₀ =>
    let s := jsTrim s₀
    if s = "" ∨ s = "NA" ∨ s = "NaN" then none
    else jsNumber s

/-- `yearFromDate` from `worldBank.ts`: trim `String(value ?? "")`, return
`null` when empty, else `Number` of the first four characters when finite. -/
def yearFromDate (v : Option String) : Option ℚ :=
  let s := jsTrim (v.getD "")
  if s = "" then none
  else jsNumber (jsSlice4 s)

/-- A raw CSV row of `world_bank_development_indicators.csv`. -/
structure WbRow where
  countryRaw : Option String
  dateRaw : Option String
  populationRaw : Option String
  gdpRaw : Option String
  co2Raw : Option String
  renewableShareRaw : Option String
  electricityAccessRaw : Option String
  deriving DecidableEq, Repr

/-- The intermediate `Tmp` record of `loadWorldBank`. -/
structure WbTmp where
  country : String
  point : WbPoint
  deriving DecidableEq, Repr

/-- The row-cleaning step of `loadWorldBank`: trim the country, extract the
year, drop the row (`none`) when either is falsy (`!country || !year`),
else coerce all numeric columns via `toNumOrNull`. -/
def cleanWbRow (r : WbRow) : Option WbTmp :=
  let country := jsTrim (r.countryRaw.getD "")
  let year := yearFromDate r.dateRaw
  if country = "" ∨ year = none ∨ year = some 0 then none
  else
    match year with
    | none => none
    | some y => some
      { country := country
        point :=
          { year := y
            population := toNumOrNull r.populationRaw
            gdp := toNumOrNull r.gdpRaw
            co2 := toNumOrNull r.co2Raw
            renewableShare := toNumOrNull r.renewableShareRaw
            electricityAccess := toNumOrNull r.electricityAccessRaw } }

/-- The wb point comparator `(a, b) => a.year - b.year`. -/
def wbYearLe (a b : WbPoint) : Prop := a.year ≤ b.year

instance : DecidableRel wbYearLe := fun a b => inferInstanceAs (Decidable (a.year ≤ b.year))

instance : IsTotal WbPoint wbYearLe := ⟨fun a b => le_total a.year b.year⟩

instance : IsTrans WbPoint wbYearLe := ⟨fun _ _ _ h h' => le_trans h h'⟩

/-- The wb series comparator `(a, b) => a.country.localeCompare(b.country)`. -/
def wbCountryLe (a b : WbSeries) : Prop := a.country ≤ b.country

instance : DecidableRel wbCountryLe := fun a b => inferInstanceAs (Decidable (a.country ≤ b.country))

instance : IsTotal WbSeries wbCountryLe := ⟨fun a b => le_total a.country b.country⟩

instance : IsTrans WbSeries wbCountryLe := ⟨fun _ _ _ h h' => le_trans h h'⟩

/-- `loadWorldBank` from `worldBank.ts`, applied to the parsed CSV (header
columns and rows): return `[]` on no rows or on a header missing
`country`, `date`, or both `GDP_current_US` and `population`; otherwise
clean and filter the rows, group by country, sort each group's points by
year and the series by country name. -/
def loadWorldBank (cols : List String) (rows : List WbRow) : List WbSeries :=
  if rows.length = 0 then []
  else
    let hasCountry := cols.contains "country"
    let hasDate := cols.contains "date"
    let hasGDP := cols.contains "GDP_current_US"
    let hasPop := cols.contains "population"
    if ¬hasCountry ∨ ¬hasDate ∨ (¬hasGDP ∧ ¬hasPop) then []
    else
      let cleaned := rows.filterMap cleanWbRow
      let grouped := groupByKey (fun d => d.country) cleaned
      let series := grouped.map (fun g =>
        { country := g.1
          points := List.insertionSort wbYearLe (g.2.map (fun d => d.point)) })
      List.insertionSort wbCountryLe series

/-- `wbByCountry` from `worldBank.ts`. -/
def wbByCountry (data : List WbSeries) (country : String) : Option WbSeries :=
  data.find? (fun d => d.country = country)

/-- `wbLatestYear` from `worldBank.ts`. -/
def wbLatestYear (points : List WbPoint) : Option ℚ :=
  match points.getLast? with
  | none => none
  | some p => some p.year

/-! ## `src/app/lib/vis/lineChart.ts` (pure core) -/

/-- `Range` from `lineChart.ts`; the `end` field is spelled `stop` because
`end` is a Lean keyword. -/
structure Range where
  start : ℚ
  stop : ℚ
  deriving DecidableEq, Repr

/-- `Point2D` from `lineChart.ts` (the opaque `customData` payload, unused
by any computation, is omitted). -/
structure Point2D where
  x : ℚ
  y : ℚ
  deriving DecidableEq, Repr

/-- `Line` from `lineChart.ts`, restricted to its data (styling is
irrelevant to every computation). -/
structure Line where
  data : List Point2D
  deriving DecidableEq, Repr

/-- `getRange` from `lineChart.ts`: min/max of the selected coordinate over
the concatenation of all lines' points; `none` models the `TypeError`
thrown by `minElement`/`maxElement` when there are no points at all. -/
def getRange? (data : List Line) (sel : Point2D → ℚ) : Option Range := do
  let points := data.flatMap (fun d => d.data)
  let mn ← minElement? points sel
  let mx ← maxElement? points sel
  pure { start := sel mn, stop := sel mx }

/-- The pure core of `lineChart`: resolve the x/y ranges (explicit `xr`/`yr`
or `getRange`), pick the drawing ranges (`{0, 1}` when normalizing), and
rescale every point when `normalize` is set.  `none` models the throw of
`getRange` on an empty point set. -/
def lineChartCore (data : List Line) (xr yr : Option Range) (normalize : Bool) :
    Option (List Line × Range × Range) := do
  let rangeX ← match xr with
    | some r => some r
    | none => getRange? data (fun p => p.x)
  let rangeY ← match yr with
    | some r => some r
    | none => getRange? data (fun p => p.y)
  let x : Range := if normalize then { start := 0, stop := 1 } else rangeX
  let y : Range := if normalize then { start := 0, stop := 1 } else rangeY
  let lines := data.map (fun line =>
    { data := line.data.map (fun point =>
        if normalize then
          { x := (point.x - rangeX.start) / (rangeX.stop - rangeX.start)
            y := (point.y - rangeY.start) / (rangeY.stop - rangeY.start) }
        else point) })
  pure (lines, x, y)

/-! ## `src/app/routes/index.tsx`: stacked bar chart helpers -/

/-- The share sum `shares.reduce((s, d) => s + d.share, 0)`. -/
def sharesSum (shares : List SourceShare) : ℚ :=
  shares.foldl (fun s d => s + d.share) 0

/-- `getShares` from the bar-chart effect in `routes/index.tsx`: look up the
country, compute its source shares for the selected year, and renormalize
them by their sum, returning `[]` when the country is absent or the sum is
not positive. -/
def getShares (emissionsData : List CountrySeries) (selectedYear : ℚ)
    (iso3 : String) : List SourceShare :=
  match emissionsData.find? (fun d => d.iso3 = iso3) with
  | none => []
  | some c =>
    let shares := sourceSharesForYear c.points selectedYear
    let sum := sharesSum shares
    if sum ≤ 0 then []
    else shares.map (fun d => { d with share := d.share / sum })

/-- The accumulated bottoms of `drawStack`: segment `i` spans
`[acc i, acc (i+1))` on the `[0, 1]` y-scale, where `acc` accumulates the
shares bottom-up. -/
def stackBottoms (shares : List SourceShare) : List ℚ :=
  (shares.map (fun d => d.share)).scanl (fun a b => a + b) 0

/-- The `sharesA.length === 0 && sharesB.length === 0` condition guarding
the "No data for selected year." message in `routes/index.tsx`. -/
def noDataMessageShown (sharesA sharesB : List SourceShare) : Bool :=
  sharesA.length = 0 ∧ sharesB.length = 0

/-! ## `src/app/lib/vis/choroplethMap.ts` -/

/-- `CountryEmission` from `choroplethMap.ts`. -/
structure CountryEmission where
  iso3 : String
  country : String
  value : ℚ
  deriving DecidableEq, Repr

/-- `ISO_NUMERIC_TO_ALPHA3` from `choroplethMap.ts` as an association list
(the object literal's own insertion order). -/
def ISO_NUMERIC_TO_ALPHA3 : List (String × String) := [
  ("4", "AFG"), ("8", "ALB"), ("10", "ATA"), ("12", "DZA"), ("16", "ASM"),
  ("20", "AND"), ("24", "AGO"), ("28", "ATG"), ("31", "AZE"), ("32", "ARG"),
  ("36", "AUS"), ("40", "AUT"), ("44", "BHS"), ("48", "BHR"), ("50", "BGD"),
  ("51", "ARM"), ("52", "BRB"), ("56", "BEL"), ("60", "BMU"), ("64", "BTN"),
  ("68", "BOL"), ("70", "BIH"), ("72", "BWA"), ("74", "BVT"), ("76", "BRA"),
  ("84", "BLZ"), ("86", "IOT"), ("90", "SLB"), ("92", "VGB"), ("96", "BRN"),
  ("100", "BGR"), ("104", "MMR"), ("108", "BDI"), ("112", "BLR"), ("116", "KHM"),
  ("120", "CMR"), ("124", "CAN"), ("132", "CPV"), ("136", "CYM"), ("140", "CAF"),
  ("144", "LKA"), ("148", "TCD"), ("152", "CHL"), ("156", "CHN"), ("158", "TWN"),
  ("162", "CXR"), ("166", "CCK"), ("170", "COL"), ("174", "COM"), ("175", "MYT"),
  ("178", "COG"), ("180", "COD"), ("184", "COK"), ("188", "CRI"), ("191", "HRV"),
  ("192", "CUB"), ("196", "CYP"), ("203", "CZE"), ("204", "BEN"), ("208", "DNK"),
  ("212", "DMA"), ("214", "DOM"), ("218", "ECU"), ("222", "SLV"), ("226", "GNQ"),
  ("231", "ETH"), ("232", "ERI"), ("233", "EST"), ("234", "FRO"), ("238", "FLK"),
  ("239", "SGS"), ("242", "FJI"), ("246", "FIN"), ("248", "ALA"), ("250", "FRA"),
  ("254", "GUF"), ("258", "PYF"), ("260", "ATF"), ("262", "DJI"), ("266", "GAB"),
  ("268", "GEO"), ("270", "GMB"), ("275", "PSE"), ("276", "DEU"), ("288", "GHA"),
  ("292", "GIB"), ("296", "KIR"), ("300", "GRC"), ("304", "GRL"), ("308", "GRD"),
  ("312", "GLP"), ("316", "GUM"), ("320", "GTM"), ("324", "GIN"), ("328", "GUY"),
  ("332", "HTI"), ("334", "HMD"), ("336", "VAT"), ("340", "HND"), ("344", "HKG"),
  ("348", "HUN"), ("352", "ISL"), ("356", "IND"), ("360", "IDN"), ("364", "IRN"),
  ("368", "IRQ"), ("372", "IRL"), ("376", "ISR"), ("380", "ITA"), ("384", "CIV"),
  ("388", "JAM"), ("392", "JPN"), ("398", "KAZ"), ("400", "JOR"), ("404", "KEN"),
  ("408", "PRK"), ("410", "KOR"), ("414", "KWT"), ("417", "KGZ"), ("418", "LAO"),
  ("422", "LBN"), ("426", "LSO"), ("428", "LVA"), ("430", "LBR"), ("434", "LBY"),
  ("438", "LIE"), ("440", "LTU"), ("442", "LUX"), ("446", "MAC"), ("450", "MDG"),
  ("454", "MWI"), ("458", "MYS"), ("462", "MDV"), ("466", "MLI"), ("470", "MLT"),
  ("474", "MTQ"), ("478", "MRT"), ("480", "MUS"), ("484", "MEX"), ("492", "MCO"),
  ("496", "MNG"), ("498", "MDA"), ("499", "MNE"), ("500", "MSR"), ("504", "MAR"),
  ("508", "MOZ"), ("512", "OMN"), ("516", "NAM"), ("520", "NRU"), ("524", "NPL"),
  ("528", "NLD"), ("531", "CUW"), ("533", "ABW"), ("534", "SXM"), ("535", "BES"),
  ("540", "NCL"), ("548", "VUT"), ("554", "NZL"), ("558", "NIC"), ("562", "NER"),
  ("566", "NGA"), ("570", "NIU"), ("574", "NFK"), ("578", "NOR"), ("580", "MNP"),
  ("581", "UMI"), ("583", "FSM"), ("584", "MHL"), ("585", "PLW"), ("586", "PAK"),
  ("591", "PAN"), ("598", "PNG"), ("600", "PRY"), ("604", "PER"), ("608", "PHL"),
  ("612", "PCN"), ("616", "POL"), ("620", "PRT"), ("624", "GNB"), ("626", "TLS"),
  ("630", "PRI"), ("634", "QAT"), ("638", "REU"), ("642", "ROU"), ("643", "RUS"),
  ("646", "RWA"), ("652", "BLM"), ("654", "SHN"), ("659", "KNA"), ("660", "AIA"),
  ("662", "LCA"), ("666", "MAF"), ("670", "VCT"), ("674", "SMR"), ("678", "STP"),
  ("682", "SAU"), ("686", "SEN"), ("688", "SRB"), ("690", "SYC"), ("694", "SLE"),
  ("702", "SGP"), ("703", "SVK"), ("704", "VNM"), ("705", "SVN"), ("706", "SOM"),
  ("710", "ZAF"), ("716", "ZWE"), ("724", "ESP"), ("728", "SSD"), ("729", "SDN"),
  ("732", "ESH"), ("740", "SUR"), ("744", "SJM"), ("748", "SWZ"), ("752", "SWE"),
  ("756", "CHE"), ("760", "SYR"), ("762", "TJK"), ("764", "THA"), ("768", "TGO"),
  ("772", "TKL"), ("776", "TON"), ("780", "TTO"), ("784", "ARE"), ("788", "TUN"),
  ("792", "TUR"), ("795", "TKM"), ("796", "TCA"), ("798", "TUV"), ("800", "UGA"),
  ("804", "UKR"), ("807", "MKD"), ("818", "EGY"), ("826", "GBR"), ("831", "GGY"),
  ("832", "JEY"), ("833", "IMN"), ("834", "TZA"), ("840", "USA"), ("850", "VIR"),
  ("854", "BFA"), ("858", "URY"), ("860", "UZB"), ("862", "VEN"), ("876", "WLF"),
  ("882", "WSM"), ("887", "YEM"), ("894", "ZMB")]

/-- `EXCLUDED_ENTITIES` from `choroplethMap.ts`. -/
def EXCLUDED_ENTITIES : List String := ["World", "Global", "International Transport"]

/-- `isExcludedEntity` from `choroplethMap.ts`. -/
def isExcludedEntity (countryName : String) : Bool :=
  EXCLUDED_ENTITIES.contains countryName

/-- `String(numericId).replace(/^0+/, "")`: strip every leading zero. -/
def stripLeadingZeros (s : String) : String :=
  String.mk (s.toList.dropWhile (fun c => c = '0'))

/-- A JS value that the lookup `ISO_NUMERIC_TO_ALPHA3[key] ?? null` can
produce: a string own-property of the object literal, a non-null non-string
value inherited from `Object.prototype` (a function or object, identified
here by its property name), `undefined`, or `null`. -/
inductive JsValue where
  | str (s : String)
  | inherited (name : String)
  | undef
  | nullVal
  deriving DecidableEq, Repr

/-- The property names of `Object.prototype` (ECMA-262 §20.2.3 plus the
Annex B accessors present in browsers): reading any of them on a plain
object literal finds an inherited non-null value, not `undefined`. -/
def OBJECT_PROTOTYPE_KEYS : List String :=
  ["constructor", "hasOwnProperty", "isPrototypeOf", "propertyIsEnumerable",
   "toLocaleString", "toString", "valueOf", "__proto__", "__defineGetter__",
   "__defineSetter__", "__lookupGetter__", "__lookupSetter__"]

/-- The JS property read `ISO_NUMERIC_TO_ALPHA3[key]`: own properties of
the object literal first, then the `Object.prototype` chain, else
`undefined`. -/
def isoTableGet (key : String) : JsValue :=
  match ISO_NUMERIC_TO_ALPHA3.lookup key with
  | some v => JsValue.str v
  | none =>
    if key ∈ OBJECT_PROTOTYPE_KEYS then JsValue.inherited key
    else JsValue.undef

/-- `getIso3FromNumeric` from `choroplethMap.ts`, on the string form of the
id: read the zero-stripped key off the table object; `?? null` turns only
`undefined` into `null` and passes every other value through — including
values inherited from `Object.prototype`. -/
def getIso3FromNumeric (numericId : String) : JsValue :=
  match isoTableGet (stripLeadingZeros numericId) with
  | JsValue.undef => JsValue.nullVal
  | v => v

/-- The `countryValues` computation of `choroplethMap`: values of the
entries of the data map whose country is not an excluded aggregate and
whose value is strictly positive. -/
def countryValues (data : List (String × CountryEmission)) : List ℚ :=
  (data.filter (fun e => ¬ isExcludedEntity e.2.country ∧ e.2.value > 0)).map
    (fun e => e.2.value)

/-- `maxValue` of `choroplethMap`: `Math.max(...countryValues)` when that
list is non-empty, else `1`. -/
def choroplethMaxValue (data : List (String × CountryEmission)) : ℚ :=
  match countryValues data with
  | [] => 1
  | v :: vs => vs.foldl max v

/-- `minValue` of `choroplethMap`: the literal `0`. -/
def choroplethMinValue : ℚ := 0

/-! ## Helper lemmas -/

/-- `find?` decomposes the list at its first hit. -/
theorem find?_decomp {α : Type} {p : α → Bool} :
    ∀ {l : List α} {a : α}, l.find? p = some a →
      ∃ l₁ l₂, l = l₁ ++ a :: l₂ ∧ (∀ x ∈ l₁, ¬ p x)
  | [], a, h => by simp [List.find?] at h
  | x :: xs, a, h => by
    rw [List.find?] at h
    by_cases hx : p x
    · rw [hx] at h
      simp only [Option.some.injEq] at h
      exact ⟨[], xs, by simp [h], by simp⟩
    · rw [Bool.not_eq_true] at hx
      rw [hx] at h
      obtain ⟨l₁, l₂, hl, hp⟩ := find?_decomp h
      exact ⟨x :: l₁, l₂, by rw [hl]; rfl, by
        intro y hy
        rcases List.mem_cons.mp hy with rfl | hy'
        · simp [hx]
        · exact hp y hy'⟩

/-- The fold of `maxElement` over a start value. -/
def maxFold {α : Type} (sel : α → ℚ) (x : α) (xs : List α) : α :=
  xs.foldl (fun a b => if sel a > sel b then a else b) x

/-- The fold of `minElement` over a start value. -/
def minFold {α : Type} (sel : α → ℚ) (x : α) (xs : List α) : α :=
  xs.foldl (fun a b => if sel a ≤ sel b then a else b) x

theorem maxElement?_cons {α : Type} (sel : α → ℚ) (x : α) (xs : List α) :
    maxElement? (x :: xs) sel = some (maxFold sel x xs) := rfl

theorem minElement?_cons {α : Type} (sel : α → ℚ) (x : α) (xs : List α) :
    minElement? (x :: xs) sel = some (minFold sel x xs) := rfl

/-- The `reduce` of `maxElement` lands on the LAST element attaining the
maximum: everything before it is `≤`, everything after it is `<`. -/
theorem maxFold_decomp {α : Type} (sel : α → ℚ) :
    ∀ (xs : List α) (x : α), ∃ l₁ l₂,
      x :: xs = l₁ ++ (maxFold sel x xs) :: l₂ ∧
      (∀ a ∈ l₁, sel a ≤ sel (maxFold sel x xs)) ∧
      (∀ a ∈ l₂, sel a < sel (maxFold sel x xs))
  | [], x => ⟨[], [], rfl, by simp, by simp⟩
  | b :: t, x => by
    have hstep : maxFold sel x (b :: t) = maxFold sel (if sel x > sel b then x else b) t := rfl
    by_cases h : sel x > sel b
    · rw [if_pos h] at hstep
      obtain ⟨l₁, l₂, hl, hle, hlt⟩ := maxFold_decomp sel t x
      rw [← hstep] at hl hle hlt
      match l₁, hl with
      | [], hl =>
        have hm : maxFold sel x (b :: t) = x := by
          have := hl
          simp only [List.nil_append, List.cons.injEq] at this
          exact this.1.symm
        refine ⟨[], b :: t, by rw [hm]; rfl, by simp, ?_⟩
        intro a ha
        rcases List.mem_cons.mp ha with rfl | ha'
        · rw [hm]; exact h
        · have ht : t = l₂ := by
            have := hl
            simp only [List.nil_append, List.cons.injEq] at this
            exact this.2
          exact hlt a (ht ▸ ha')
      | y :: l₁', hl =>
        have hy : x = y ∧ t = l₁' ++ maxFold sel x (b :: t) :: l₂ := by
          have := hl
          simp only [List.cons_append, List.cons.injEq] at this
          exact this
        refine ⟨x :: b :: l₁', l₂, ?_, ?_, hlt⟩
        · rw [show x :: b :: t = x :: b :: (l₁' ++ maxFold sel x (b :: t) :: l₂) by
            rw [← hy.2]]
          rfl
        · intro a ha
          rcases List.mem_cons.mp ha with rfl | ha'
          · exact hle a (hy.1 ▸ List.mem_cons_self _ _)
          rcases List.mem_cons.mp ha' with rfl | ha''
          · exact le_trans (le_of_lt h) (hle x (hy.1 ▸ List.mem_cons_self _ _))
          · exact hle a (List.mem_cons_of_mem _ ha'')
    · rw [if_neg h] at hstep
      have hxb : sel x ≤ sel b := le_of_not_lt h
      obtain ⟨l₁, l₂, hl, hle, hlt⟩ := maxFold_decomp sel t b
      rw [← hstep] at hl hle hlt
      match l₁, hl with
      | [], hl =>
        have hm : maxFold sel x (b :: t) = b := by
          have := hl
          simp only [List.nil_append, List.cons.injEq] at this
          exact this.1.symm
        have ht : t = l₂ := by
          have := hl
          simp only [List.nil_append, List.cons.injEq] at this
          exact this.2
        refine ⟨[x], t, by rw [hm]; rfl, ?_, fun a ha => hlt a (ht ▸ ha)⟩
        intro a ha
        rcases List.mem_singleton.mp ha with rfl
        rw [hm]; exact hxb
      | y :: l₁', hl =>
        have hy : b = y ∧ t = l₁' ++ maxFold sel x (b :: t) :: l₂ := by
          have := hl
          simp only [List.cons_append, List.cons.injEq] at this
          exact this
        have hbm : sel b ≤ sel (maxFold sel x (b :: t)) :=
          hle b (hy.1 ▸ List.mem_cons_self _ _)
        refine ⟨x :: b :: l₁', l₂, ?_, ?_, hlt⟩
        · rw [show x :: b :: t = x :: b :: (l₁' ++ maxFold sel x (b :: t) :: l₂) by
            rw [← hy.2]]
          rfl
        · intro a ha
          rcases List.mem_cons.mp ha with rfl | ha'
          · exact le_trans hxb hbm
          rcases List.mem_cons.mp ha' with rfl | ha''
          · exact hbm
          · exact hle a (List.mem_cons_of_mem _ ha'')

/-- The `reduce` of `minElement` lands on the FIRST element attaining the
minimum: everything before it is `>`, everything after it is `≥`. -/
theorem minFold_decomp {α : Type} (sel : α → ℚ) :
    ∀ (xs : List α) (x : α), ∃ l₁ l₂,
      x :: xs = l₁ ++ (minFold sel x xs) :: l₂ ∧
      (∀ a ∈ l₁, sel (minFold sel x xs) < sel a) ∧
      (∀ a ∈ l₂, sel (minFold sel x xs) ≤ sel a)
  | [], x => ⟨[], [], rfl, by simp, by simp⟩
  | b :: t, x => by
    have hstep : minFold sel x (b :: t) = minFold sel (if sel x ≤ sel b then x else b) t := rfl
    by_cases h : sel x ≤ sel b
    · rw [if_pos h] at hstep
      obtain ⟨l₁, l₂, hl, hgt, hge⟩ := minFold_decomp sel t x
      rw [← hstep] at hl hgt hge
      match l₁, hl with
      | [], hl =>
        have hm : minFold sel x (b :: t) = x := by
          have := hl
          simp only [List.nil_append, List.cons.injEq] at this
          exact this.1.symm
        have ht : t = l₂ := by
          have := hl
          simp only [List.nil_append, List.cons.injEq] at this
          exact this.2
        refine ⟨[], b :: t, by rw [hm]; rfl, by simp, ?_⟩
        intro a ha
        rcases List.mem_cons.mp ha with rfl | ha'
        · rw [hm]; exact h
        · exact hge a (ht ▸ ha')
      | y :: l₁', hl =>
        have hy : x = y ∧ t = l₁' ++ minFold sel x (b :: t) :: l₂ := by
          have := hl
          simp only [List.cons_append, List.cons.injEq] at this
          exact this
        have hxm : sel (minFold sel x (b :: t)) < sel x :=
          hgt x (hy.1 ▸ List.mem_cons_self _ _)
        refine ⟨x :: b :: l₁', l₂, ?_, ?_, hge⟩
        · rw [show x :: b :: t = x :: b :: (l₁' ++ minFold sel x (b :: t) :: l₂) by
            rw [← hy.2]]
          rfl
        · intro a ha
          rcases List.mem_cons.mp ha with rfl | ha'
          · exact hxm
          rcases List.mem_cons.mp ha' with rfl | ha''
          · exact lt_of_lt_of_le hxm h
          · exact hgt a (List.mem_cons_of_mem _ ha'')
    · rw [if_neg h] at hstep
      have hbx : sel b < sel x := lt_of_not_le h
      obtain ⟨l₁, l₂, hl, hgt, hge⟩ := minFold_decomp sel t b
      rw [← hstep] at hl hgt hge
      match l₁, hl with
      | [], hl =>
        have hm : minFold sel x (b :: t) = b := by
          have := hl
          simp only [List.nil_append, List.cons.injEq] at this
          exact this.1.symm
        have ht : t = l₂ := by
          have := hl
          simp only [List.nil_append, List.cons.injEq] at this
          exact this.2
        refine ⟨[x], t, by rw [hm]; rfl, ?_, fun a ha => hge a (ht ▸ ha)⟩
        intro a ha
        rcases List.mem_singleton.mp ha with rfl
        rw [hm]; exact hbx
      | y :: l₁', hl =>
        have hy : b = y ∧ t = l₁' ++ minFold sel x (b :: t) :: l₂ := by
          have := hl
          simp only [List.cons_append, List.cons.injEq] at this
          exact this
        have hbm : sel (minFold sel x (b :: t)) < sel b :=
          hgt b (hy.1 ▸ List.mem_cons_self _ _)
        refine ⟨x :: b :: l₁', l₂, ?_, ?_, hge⟩
        · rw [show x :: b :: t = x :: b :: (l₁' ++ minFold sel x (b :: t) :: l₂) by
            rw [← hy.2]]
          rfl
        · intro a ha
          rcases List.mem_cons.mp ha with rfl | ha'
          · exact lt_trans hbm hbx
          rcases List.mem_cons.mp ha' with rfl | ha''
          · exact hbm
          · exact hgt a (List.mem_cons_of_mem _ ha'')

/-- Membership in the first-occurrence key list is membership among the keys. -/
theorem mem_firstOccKeys {α κ : Type} [DecidableEq κ] (key : α → κ) :
    ∀ (l : List α) (k : κ), k ∈ firstOccKeys key l ↔ k ∈ l.map key
  | [], k => by simp [firstOccKeys]
  | x :: xs, k => by
    simp only [firstOccKeys, List.map_cons, List.mem_cons, List.mem_filter,
      mem_firstOccKeys key xs k]
    by_cases hk : k = key x
    · simp [hk]
    · simp [hk, mem_firstOccKeys key xs]

/-- The first-occurrence key list has no duplicates. -/
theorem nodup_firstOccKeys {α κ : Type} [DecidableEq κ] (key : α → κ) :
    ∀ (l : List α), (firstOccKeys key l).Nodup
  | [] => List.nodup_nil
  | x :: xs => by
    rw [firstOccKeys]
    refine List.Nodup.cons ?_ (List.Nodup.filter _ (nodup_firstOccKeys key xs))
    intro hmem
    have := (List.mem_filter.mp hmem).2
    simp at this

/-- In a duplicate-free list, `countP (· = k)` is `1` or `0` by membership. -/
theorem countP_eq_of_nodup {κ : Type} [DecidableEq κ] :
    ∀ {l : List κ}, l.Nodup → ∀ (k : κ),
      l.countP (fun x => x = k) = if k ∈ l then 1 else 0
  | [], _, k => by simp
  | x :: xs, h, k => by
    have hx := (List.nodup_cons.mp h).1
    have hxs := (List.nodup_cons.mp h).2
    rw [List.countP_cons]
    rw [countP_eq_of_nodup hxs k]
    by_cases hk : k = x
    · subst hk
      simp [hx]
    · simp [hk, Ne.symm hk, List.mem_cons]

/-- A `foldl (+ share)` over any start value. -/
theorem foldl_add_share (l : List SourceShare) :
    ∀ (a : ℚ), l.foldl (fun s d => s + d.share) a = a + (l.map (fun d => d.share)).sum := by
  induction l with
  | nil => intro a; simp
  | cons x t ih =>
    intro a
    rw [List.foldl_cons, ih, List.map_cons, List.sum_cons]
    ring

/-- A `foldl (+)` over pairs, as used for the fallback total. -/
theorem foldl_add_snd (l : List (SourceKey × ℚ)) :
    ∀ (a : ℚ), l.foldl (fun s e => s + e.2) a = a + (l.map (fun e => e.2)).sum := by
  induction l with
  | nil => intro a; simp
  | cons x t ih =>
    intro a
    rw [List.foldl_cons, ih, List.map_cons, List.sum_cons]
    ring

/-- `scanl (+)` ends at the initial value plus the total sum. -/
theorem scanl_add_getLast :
    ∀ (l : List ℚ) (a : ℚ), (l.scanl (fun x y => x + y) a).getLast? = some (a + l.sum)
  | [], a => by simp [List.scanl]
  | x :: t, a => by
    rw [List.scanl]
    obtain ⟨b, bs, hb⟩ : ∃ b bs, List.scanl (fun x y => x + y) (a + x) t = b :: bs := by
      cases t <;> exact ⟨_, _, rfl⟩
    rw [hb, List.getLast?_cons_cons]
    have := scanl_add_getLast t (a + x)
    rw [hb] at this
    rw [this]
    simp only [Option.some.injEq, List.sum_cons]
    ring

/-- `lookup` hits are members of the association list. -/
theorem lookup_mem {k v : String} :
    ∀ {l : List (String × String)}, l.lookup k = some v → (k, v) ∈ l
  | [], h => by simp [List.lookup] at h
  | a :: t, h => by
    rw [List.lookup] at h
    by_cases hk : k == a.1
    · rw [hk] at h
      simp only [Option.some.injEq] at h
      have hke : k = a.1 := beq_iff_eq.mp hk
      have : (k, v) = a := by rw [hke, ← h]
      rw [this]
      exact List.mem_cons_self a t
    · rw [Bool.not_eq_true] at hk
      rw [hk] at h
      exact List.mem_cons_of_mem _ (lookup_mem h)

/-- `lookup` misses every key outside the association list. -/
theorem lookup_eq_none_of_not_mem {k : String} :
    ∀ {l : List (String × String)}, k ∉ l.map Prod.fst → l.lookup k = none
  | [], _ => rfl
  | a :: t, h => by
    simp only [List.map_cons, List.mem_cons] at h
    push_neg at h
    rw [List.lookup]
    rw [beq_eq_false_iff_ne.mpr h.1]
    exact lookup_eq_none_of_not_mem h.2

/-- In a key-duplicate-free association list, every member is found. -/
theorem lookup_of_mem_nodup {k v : String} {l : List (String × String)}
    (hnd : (l.map Prod.fst).Nodup) (hmem : (k, v) ∈ l) : l.lookup k = some v := by
  induction l with
  | nil => simp at hmem
  | cons a t ih =>
    rw [List.map_cons, List.nodup_cons] at hnd
    rcases List.mem_cons.mp hmem with heq | hmem'
    · rw [← heq]
      rw [List.lookup]
      simp
    · rw [List.lookup]
      have hka : k ≠ a.1 := by
        intro hk
        exact hnd.1 (hk ▸ List.mem_map_of_mem Prod.fst hmem')
      rw [beq_eq_false_iff_ne.mpr hka]
      exact ih hnd.2 hmem'

/-- `foldl max` stays in the list it folds over. -/
theorem foldl_max_mem : ∀ (vs : List ℚ) (v : ℚ), vs.foldl max v ∈ v :: vs
  | [], v => by simp
  | b :: t, v => by
    rw [List.foldl_cons]
    have := foldl_max_mem t (max v b)
    rcases List.mem_cons.mp this with h | h
    · rw [h]
      rcases max_choice v b with h' | h' <;> rw [h']
      · exact List.mem_cons_self _ _
      · exact List.mem_cons_of_mem _ (List.mem_cons_self _ _)
    · exact List.mem_cons_of_mem _ (List.mem_cons_of_mem _ h)

/-- `foldl max` bounds every participant from above. -/
theorem le_foldl_max : ∀ (vs : List ℚ) (v : ℚ), ∀ a ∈ v :: vs, a ≤ vs.foldl max v
  | [], v => by simp
  | b :: t, v => by
    intro a ha
    rw [List.foldl_cons]
    rcases List.mem_cons.mp ha with rfl | ha'
    · exact le_trans (le_max_left a b) (le_foldl_max t (max a b) _ (List.mem_cons_self _ _))
    rcases List.mem_cons.mp ha' with rfl | ha''
    · exact le_trans (le_max_right v a) (le_foldl_max t (max v a) _ (List.mem_cons_self _ _))
    · exact le_foldl_max t (max v b) a (List.mem_cons_of_mem _ ha'')

/-- Every entry of `countryValues` is strictly positive. -/
theorem countryValues_pos (data : List (String × CountryEmission)) :
    ∀ v ∈ countryValues data, 0 < v := by
  intro v hv
  rw [countryValues] at hv
  obtain ⟨e, he, rfl⟩ := List.mem_map.mp hv
  have := (List.mem_filter.mp he).2
  simp only [decide_eq_true_eq] at this
  exact this.2

/-! ## Claim theorems -/

/-- C8: on the empty list `maxElement` and `minElement` both throw (modelled
as `none`); on every non-empty list `maxElement` returns an element whose
selector value bounds all others from above and which is the LAST element
attaining that maximum, while `minElement` returns an element attaining the
minimum and is the FIRST such element. -/
theorem claim_C8_min_max_element {α : Type} (l : List α) (sel : α → ℚ) :
    (maxElement? ([] : List α) sel = none ∧ minElement? ([] : List α) sel = none) ∧
    (l ≠ [] → ∃ m, maxElement? l sel = some m ∧ (∀ a ∈ l, sel a ≤ sel m) ∧
      ∃ l₁ l₂, l = l₁ ++ m :: l₂ ∧ (∀ a ∈ l₂, sel a < sel m)) ∧
    (l ≠ [] → ∃ m, minElement? l sel = some m ∧ (∀ a ∈ l, sel m ≤ sel a) ∧
      ∃ l₁ l₂, l = l₁ ++ m :: l₂ ∧ (∀ a ∈ l₁, sel m < sel a)) := by
  refine ⟨⟨rfl, rfl⟩, ?_, ?_⟩
  · intro hne
    match l, hne with
    | x :: xs, _ =>
      obtain ⟨l₁, l₂, hl, hle, hlt⟩ := maxFold_decomp sel xs x
      refine ⟨maxFold sel x xs, maxElement?_cons sel x xs, ?_, l₁, l₂, hl, hlt⟩
      intro a ha
      rw [hl] at ha
      rcases List.mem_append.mp ha with h | h
      · exact hle a h
      rcases List.mem_cons.mp h with rfl | h'
      · exact le_refl _
      · exact le_of_lt (hlt a h')
  · intro hne
    match l, hne with
    | x :: xs, _ =>
      obtain ⟨l₁, l₂, hl, hgt, hge⟩ := minFold_decomp sel xs x
      refine ⟨minFold sel x xs, minElement?_cons sel x xs, ?_, l₁, l₂, hl, hgt⟩
      intro a ha
      rw [hl] at ha
      rcases List.mem_append.mp ha with h | h
      · exact le_of_lt (hgt a h)
      rcases List.mem_cons.mp h with rfl | h'
      · exact le_refl _
      · exact hge a h'

/-- C1: `sourceSharesForYear` returns `[]` when no point carries the year;
when a point of that year exists, `find?` yields the first one `p` and the
result is the six entries Coal, Oil, Gas, Cement, Flaring, Other, each
valued by the corresponding field of `p` with share `value / total`, where
the total is `p.total` when non-zero and otherwise the six sources' sum,
and every share is `0` when that total is not positive. -/
theorem claim_C1_source_shares (points : List YearPoint) (year : ℚ) :
    ((∀ p ∈ points, p.year ≠ year) → sourceSharesForYear points year = []) ∧
    ((∃ p ∈ points, p.year = year) →
      ∃ p, points.find? (fun x => x.year = year) = some p) ∧
    (∀ p, points.find? (fun x => x.year = year) = some p →
      p.year = year ∧
      sourceSharesForYear points year =
        (let total := if p.total ≠ 0 then p.total
          else p.coal + p.oil + p.gas + p.cement + p.flaring + p.other
         [⟨SourceKey.Coal, p.coal, if total > 0 then p.coal / total else 0⟩,
          ⟨SourceKey.Oil, p.oil, if total > 0 then p.oil / total else 0⟩,
          ⟨SourceKey.Gas, p.gas, if total > 0 then p.gas / total else 0⟩,
          ⟨SourceKey.Cement, p.cement, if total > 0 then p.cement / total else 0⟩,
          ⟨SourceKey.Flaring, p.flaring, if total > 0 then p.flaring / total else 0⟩,
          ⟨SourceKey.Other, p.other, if total > 0 then p.other / total else 0⟩])) := by
  refine ⟨?_, ?_, ?_⟩
  · intro h
    rw [sourceSharesForYear]
    have hn : points.find? (fun x => x.year = year) = none := by
      rw [List.find?_eq_none]
      intro x hx
      simpa using h x hx
    rw [hn]
  · intro ⟨p, hp, hy⟩
    have : (points.find? (fun x => x.year = year)).isSome := by
      rw [List.find?_isSome]
      exact ⟨p, hp, by simpa using hy⟩
    exact Option.isSome_iff_exists.mp this
  · intro p hp
    refine ⟨by simpa using List.find?_some hp, ?_⟩
    rw [sourceSharesForYear, hp]
    simp only [List.map_cons, List.map_nil, List.foldl_cons, List.foldl_nil, zero_add]

/-- C5: all missing lookups fall back to explicit no-data values: `byIso3`
and `wbByCountry` return `none` without a match and the first match
otherwise, `latestYear`/`wbLatestYear` return `none` exactly on the empty
point list and the last point's year otherwise, and `sourceSharesForYear`
returns `[]` when the year is absent. -/
theorem claim_C5_no_data_fallbacks (data : List CountrySeries) (wdata : List WbSeries)
    (iso3 country : String) (points : List YearPoint) (wpoints : List WbPoint)
    (year : ℚ) :
    ((∀ s ∈ data, s.iso3 ≠ iso3) → byIso3 data iso3 = none) ∧
    (∀ s, byIso3 data iso3 = some s → s.iso3 = iso3 ∧
      ∃ l₁ l₂, data = l₁ ++ s :: l₂ ∧ ∀ t ∈ l₁, t.iso3 ≠ iso3) ∧
    ((∀ s ∈ wdata, s.country ≠ country) → wbByCountry wdata country = none) ∧
    (∀ s, wbByCountry wdata country = some s → s.country = country ∧
      ∃ l₁ l₂, wdata = l₁ ++ s :: l₂ ∧ ∀ t ∈ l₁, t.country ≠ country) ∧
    (latestYear points = none ↔ points = []) ∧
    (∀ p, points.getLast? = some p → latestYear points = some p.year) ∧
    (wbLatestYear wpoints = none ↔ wpoints = []) ∧
    (∀ p, wpoints.getLast? = some p → wbLatestYear wpoints = some p.year) ∧
    ((∀ p ∈ points, p.year ≠ year) → sourceSharesForYear points year = []) := by
  refine ⟨?_, ?_, ?_, ?_, ?_, ?_, ?_, ?_, ?_⟩
  · intro h
    rw [byIso3, List.find?_eq_none]
    intro s hs
    simpa using h s hs
  · intro s hs
    rw [byIso3] at hs
    refine ⟨by simpa using List.find?_some hs, ?_⟩
    obtain ⟨l₁, l₂, hl, hp⟩ := find?_decomp hs
    exact ⟨l₁, l₂, hl, fun t ht => by simpa using hp t ht⟩
  · intro h
    rw [wbByCountry, List.find?_eq_none]
    intro s hs
    simpa using h s hs
  · intro s hs
    rw [wbByCountry] at hs
    refine ⟨by simpa using List.find?_some hs, ?_⟩
    obtain ⟨l₁, l₂, hl, hp⟩ := find?_decomp hs
    exact ⟨l₁, l₂, hl, fun t ht => by simpa using hp t ht⟩
  · rw [latestYear]
    rcases h : points.getLast? with _ | p
    · simpa using List.getLast?_eq_none_iff.mp h
    · simp only []
      constructor
      · intro hc; exact absurd hc (by simp)
      · intro hc
        rw [hc] at h
        simp [List.getLast?] at h
  · intro p hp
    rw [latestYear, hp]
  · rw [wbLatestYear]
    rcases h : wpoints.getLast? with _ | p
    · simpa using List.getLast?_eq_none_iff.mp h
    · simp only []
      constructor
      · intro hc; exact absurd hc (by simp)
      · intro hc
        rw [hc] at h
        simp [List.getLast?] at h
  · intro p hp
    rw [wbLatestYear, hp]
  · intro h
    rw [sourceSharesForYear]
    have hn : points.find? (fun x => x.year = year) = none := by
      rw [List.find?_eq_none]
      intro x hx
      simpa using h x hx
    rw [hn]

/-- C10: the choropleth color-scale domain is never degenerate: `minValue`
is the literal `0` and `maxValue` is strictly positive — the maximum of the
strictly positive values of non-excluded entries, or `1` when no such value
exists — and entries that are excluded aggregates or non-positive never
influence it. -/
theorem claim_C10_choropleth_scale (data : List (String × CountryEmission)) :
    0 < choroplethMaxValue data ∧
    choroplethMinValue = 0 ∧
    (countryValues data = [] → choroplethMaxValue data = 1) ∧
    (countryValues data ≠ [] →
      choroplethMaxValue data ∈ countryValues data ∧
      ∀ v ∈ countryValues data, v ≤ choroplethMaxValue data) ∧
    choroplethMaxValue
        (data.filter (fun e => ¬ isExcludedEntity e.2.country ∧ e.2.value > 0)) =
      choroplethMaxValue data := by
  have hmem : countryValues data ≠ [] →
      choroplethMaxValue data ∈ countryValues data ∧
      ∀ v ∈ countryValues data, v ≤ choroplethMaxValue data := by
    intro hne
    rcases h : countryValues data with _ | ⟨v, vs⟩
    · exact absurd h hne
    · rw [choroplethMaxValue, h]
      exact ⟨foldl_max_mem vs v, le_foldl_max vs v⟩
  refine ⟨?_, rfl, ?_, hmem, ?_⟩
  · rcases h : countryValues data with _ | ⟨v, vs⟩
    · rw [choroplethMaxValue, h]; norm_num
    · have h1 := (hmem (by rw [h]; simp)).1
      have h2 := countryValues_pos data _ h1
      exact h2
  · intro h
    rw [choroplethMaxValue, h]
  · rw [choroplethMaxValue, choroplethMaxValue]
    have : countryValues
        (data.filter (fun e => ¬ isExcludedEntity e.2.country ∧ e.2.value > 0)) =
        countryValues data := by
      rw [countryValues, countryValues, List.filter_filter]
      congr 1
      apply List.filter_congr
      intro e _
      simp
    rw [this]

/-- `String.mk` of the character list of `s` is `s` itself. -/
theorem mk_toList (s : String) : String.mk s.toList = s := rfl

/-- Prepending `'0'`-characters does not change the stripped key. -/
theorem stripLeadingZeros_append_zeros (n : Nat) (s : String) :
    stripLeadingZeros (String.mk (List.replicate n '0') ++ s) = stripLeadingZeros s := by
  rw [stripLeadingZeros, stripLeadingZeros]
  have htl : (String.mk (List.replicate n '0') ++ s).toList =
      List.replicate n '0' ++ s.toList := rfl
  rw [htl]
  congr 1
  induction n with
  | zero => rfl
  | succ m _ih =>
    rw [List.replicate_succ, List.cons_append, List.dropWhile_cons]
    simp

/-- Stripping is the identity on a string with no leading `'0'`. -/
theorem stripLeadingZeros_of_head_ne {s : String} (h : s.toList.head? ≠ some '0') :
    stripLeadingZeros s = s := by
  rw [stripLeadingZeros]
  have hd : s.toList.dropWhile (fun c => c = '0') = s.toList := by
    rcases hl : s.toList with _ | ⟨c, t⟩
    · rfl
    · rw [List.dropWhile_cons]
      have hc : ¬ (c = '0') := by rw [hl] at h; simpa using h
      simp [hc]
  rw [hd, mk_toList]

set_option maxRecDepth 40000

/-- C9 counterexample: `"constructor"` strips to itself and is not a key of
`ISO_NUMERIC_TO_ALPHA3`, yet the lookup finds `Object.prototype.constructor`
through the prototype chain and `?? null` passes that non-null value on, so
the function does not return `null` there. -/
theorem claim_C9_iso_numeric_lookup_counterexample :
    stripLeadingZeros "constructor" ∉ ISO_NUMERIC_TO_ALPHA3.map Prod.fst ∧
    getIso3FromNumeric "constructor" ≠ JsValue.nullVal ∧
    getIso3FromNumeric "constructor" = JsValue.inherited "constructor" :=
  ⟨by decide, by decide, by decide⟩

/-- C9 (amended): `getIso3FromNumeric` is invariant under leading-zero
padding of its input; it returns the mapped alpha-3 code for every key of
`ISO_NUMERIC_TO_ALPHA3`; it returns `null` for every other input whose
stripped key is not a property inherited from `Object.prototype` — in
particular for `"0"`, whose stripped key is `""` — and for an input whose
stripped key is an `Object.prototype` property name it returns that
inherited non-null value instead of `null`. -/
theorem claim_C9_iso_numeric_lookup (s : String) (n : Nat) (k v : String) :
    (getIso3FromNumeric (String.mk (List.replicate n '0') ++ s) =
      getIso3FromNumeric s) ∧
    ((k, v) ∈ ISO_NUMERIC_TO_ALPHA3 → getIso3FromNumeric k = JsValue.str v) ∧
    (stripLeadingZeros s ∉ ISO_NUMERIC_TO_ALPHA3.map Prod.fst →
      stripLeadingZeros s ∉ OBJECT_PROTOTYPE_KEYS →
      getIso3FromNumeric s = JsValue.nullVal) ∧
    (stripLeadingZeros s ∉ ISO_NUMERIC_TO_ALPHA3.map Prod.fst →
      stripLeadingZeros s ∈ OBJECT_PROTOTYPE_KEYS →
      getIso3FromNumeric s = JsValue.inherited (stripLeadingZeros s)) ∧
    getIso3FromNumeric "0" = JsValue.nullVal := by
  refine ⟨?_, ?_, ?_, ?_, ?_⟩
  · simp only [getIso3FromNumeric, stripLeadingZeros_append_zeros]
  · intro hmem
    have hnd : (ISO_NUMERIC_TO_ALPHA3.map Prod.fst).Nodup := by decide
    have hkeys : ∀ x ∈ ISO_NUMERIC_TO_ALPHA3.map Prod.fst,
        x.toList.head? ≠ some '0' := by decide
    have hk : k.toList.head? ≠ some '0' :=
      hkeys k (List.mem_map_of_mem Prod.fst hmem)
    have hlk : ISO_NUMERIC_TO_ALPHA3.lookup k = some v :=
      lookup_of_mem_nodup hnd hmem
    rw [getIso3FromNumeric, stripLeadingZeros_of_head_ne hk, isoTableGet, hlk]
  · intro h1 h2
    rw [getIso3FromNumeric, isoTableGet, lookup_eq_none_of_not_mem h1, if_neg h2]
  · intro h1 h2
    rw [getIso3FromNumeric, isoTableGet, lookup_eq_none_of_not_mem h1, if_pos h2]
  · decide

/-- Witness for C9 (amended) at concrete inputs: `"004"` and `"4"` agree,
`"4"` maps to `"AFG"`, `"99"` (no such numeric code, not a prototype
property) maps to `null`, and `"toString"` hits the prototype chain. -/
theorem claim_C9_iso_numeric_lookup_witness :
    getIso3FromNumeric (String.mk (List.replicate 2 '0') ++ "4") =
      getIso3FromNumeric "4" ∧
    getIso3FromNumeric "4" = JsValue.str "AFG" ∧
    getIso3FromNumeric "99" = JsValue.nullVal ∧
    getIso3FromNumeric "toString" = JsValue.inherited "toString" :=
  ⟨(claim_C9_iso_numeric_lookup "4" 2 "4" "AFG").1,
   (claim_C9_iso_numeric_lookup "4" 2 "4" "AFG").2.1 (by decide),
   (claim_C9_iso_numeric_lookup "99" 0 "4" "AFG").2.2.1 (by decide) (by decide),
   (claim_C9_iso_numeric_lookup "toString" 0 "4" "AFG").2.2.2.1 (by decide)
     (by decide)⟩

/-- Witness for C8 on `[1, 3, 2]`. -/
theorem claim_C8_min_max_element_witness :
    (∃ m, maxElement? [(1 : ℚ), 3, 2] id = some m ∧
      (∀ a ∈ [(1 : ℚ), 3, 2], id a ≤ id m) ∧
      ∃ l₁ l₂, [(1 : ℚ), 3, 2] = l₁ ++ m :: l₂ ∧ (∀ a ∈ l₂, id a < id m)) ∧
    (∃ m, minElement? [(1 : ℚ), 3, 2] id = some m ∧
      (∀ a ∈ [(1 : ℚ), 3, 2], id m ≤ id a) ∧
      ∃ l₁ l₂, [(1 : ℚ), 3, 2] = l₁ ++ m :: l₂ ∧ (∀ a ∈ l₁, id m < id a)) :=
  ⟨(claim_C8_min_max_element [(1 : ℚ), 3, 2] id).2.1 (by simp),
   (claim_C8_min_max_element [(1 : ℚ), 3, 2] id).2.2 (by simp)⟩

/-- Witness for C1: the empty branch on `[]`, and the found branch on a
single point of year 2000 with `total = 1`, `coal = 1`. -/
theorem claim_C1_source_shares_witness :
    sourceSharesForYear ([] : List YearPoint) 2000 = [] ∧
    ((⟨2000, 1, 1, 0, 0, 0, 0, 0, 0⟩ : YearPoint).year = 2000 ∧
      sourceSharesForYear [(⟨2000, 1, 1, 0, 0, 0, 0, 0, 0⟩ : YearPoint)] 2000 =
        (let total := if (1 : ℚ) ≠ 0 then (1 : ℚ)
          else 1 + 0 + 0 + 0 + 0 + 0
         [⟨SourceKey.Coal, 1, if total > 0 then 1 / total else 0⟩,
          ⟨SourceKey.Oil, 0, if total > 0 then 0 / total else 0⟩,
          ⟨SourceKey.Gas, 0, if total > 0 then 0 / total else 0⟩,
          ⟨SourceKey.Cement, 0, if total > 0 then 0 / total else 0⟩,
          ⟨SourceKey.Flaring, 0, if total > 0 then 0 / total else 0⟩,
          ⟨SourceKey.Other, 0, if total > 0 then 0 / total else 0⟩])) :=
  ⟨(claim_C1_source_shares [] 2000).1 (by simp),
   (claim_C1_source_shares [⟨2000, 1, 1, 0, 0, 0, 0, 0, 0⟩] 2000).2.2 _ (by decide)⟩

/-- Witness for C5 on empty data and point lists. -/
theorem claim_C5_no_data_fallbacks_witness :
    byIso3 [] "DEU" = none ∧
    wbByCountry [] "Germany" = none ∧
    latestYear [] = none ∧
    sourceSharesForYear ([] : List YearPoint) 2024 = [] :=
  ⟨(claim_C5_no_data_fallbacks [] [] "DEU" "Germany" [] [] 2024).1 (by simp),
   (claim_C5_no_data_fallbacks [] [] "DEU" "Germany" [] [] 2024).2.2.1 (by simp),
   (claim_C5_no_data_fallbacks [] [] "DEU" "Germany" [] [] 2024).2.2.2.2.1.mpr rfl,
   (claim_C5_no_data_fallbacks [] [] "DEU" "Germany" [] [] 2024).2.2.2.2.2.2.2.2 (by simp)⟩

/-- Witness for C10 on a one-entry data map with value 5. -/
theorem claim_C10_choropleth_scale_witness :
    choroplethMaxValue [("DEU", ⟨"DEU", "Germany", 5⟩)] ∈
      countryValues [("DEU", ⟨"DEU", "Germany", 5⟩)] ∧
    ∀ v ∈ countryValues [("DEU", ⟨"DEU", "Germany", 5⟩)],
      v ≤ choroplethMaxValue [("DEU", ⟨"DEU", "Germany", 5⟩)] :=
  (claim_C10_choropleth_scale [("DEU", ⟨"DEU", "Germany", 5⟩)]).2.2.2.1 (by decide)

/-- `toNum` is `0` exactly on a missing value, a non-finite parse, or a
parse to `0` — i.e. exactly when the value does not parse to a non-zero
finite number. -/
theorem toNum_eq_zero_iff (v : Option String) :
    toNum v = 0 ↔
      v = none ∨ ∃ s, v = some s ∧ (jsNumber s = none ∨ jsNumber s = some 0) := by
  rcases v with _ | s
  · simp [toNum]
  · constructor
    · intro h0
      right
      refine ⟨s, rfl, ?_⟩
      rcases hj : jsNumber s with _ | q
      · exact Or.inl rfl
      · right
        rw [toNum, hj, Option.getD_some] at h0
        rw [h0]
    · rintro (h | ⟨s', hs', hj⟩)
      · exact absurd h (by simp)
      · rw [Option.some.injEq] at hs'
        subst hs'
        rcases hj with hj | hj
        · rw [toNum, hj]
          rfl
        · rw [toNum, hj]
          rfl

/-- C2: the loaders silently filter malformed rows instead of failing (both
are total functions of the row list): `loadEmissions` drops exactly the
rows with blank trimmed iso code or country or a year not parsing to a
non-zero finite number and coerces unparseable numerics of kept rows to
`0`; `loadWorldBank` drops rows with blank country or unparseable year,
coerces unparseable numerics (missing, empty, `"NA"`, `"NaN"`, non-finite)
to `none`, and returns `[]` outright when the header lacks `country` or
`date` or both `GDP_current_US` and `population`. -/
theorem claim_C2_loaders_filter_malformed (r : EmRow) (w : WbRow) (s : String)
    (cols : List String) (rows : List WbRow) :
    (cleanEmRow r = none ↔
      (jsTrim (r.iso3Raw.getD "") = "" ∨ jsTrim (r.countryRaw.getD "") = "" ∨
        toNum r.yearRaw = 0)) ∧
    (toNum r.yearRaw = 0 ↔
      r.yearRaw = none ∨ ∃ ys, r.yearRaw = some ys ∧
        (jsNumber ys = none ∨ jsNumber ys = some 0)) ∧
    (jsNumber s = none → toNum (some s) = 0) ∧
    ((jsTrim (w.countryRaw.getD "") = "" ∨ yearFromDate w.dateRaw = none) →
      cleanWbRow w = none) ∧
    (toNumOrNull none = none) ∧
    ((jsTrim s = "" ∨ jsTrim s = "NA" ∨ jsTrim s = "NaN" ∨
        jsNumber (jsTrim s) = none) → toNumOrNull (some s) = none) ∧
    ((¬ cols.contains "country" ∨ ¬ cols.contains "date" ∨
        (¬ cols.contains "GDP_current_US" ∧ ¬ cols.contains "population")) →
      loadWorldBank cols rows = []) := by
  refine ⟨?_, toNum_eq_zero_iff r.yearRaw, ?_, ?_, rfl, ?_, ?_⟩
  · rw [cleanEmRow]
    by_cases h : jsTrim (r.iso3Raw.getD "") = "" ∨ jsTrim (r.countryRaw.getD "") = "" ∨
        toNum r.yearRaw = 0
    · simp [h]
    · simp [h]
  · intro h
    rw [toNum, h]
    rfl
  · intro h
    rw [cleanWbRow]
    have hcond : jsTrim (w.countryRaw.getD "") = "" ∨ yearFromDate w.dateRaw = none ∨
        yearFromDate w.dateRaw = some 0 := by tauto
    rw [if_pos hcond]
  · intro h
    rw [toNumOrNull]
    by_cases hs : jsTrim s = "" ∨ jsTrim s = "NA" ∨ jsTrim s = "NaN"
    · rw [if_pos hs]
    · rw [if_neg hs]
      tauto
  · intro h
    rw [loadWorldBank]
    by_cases hlen : rows.length = 0
    · rw [if_pos hlen]
    · rw [if_neg hlen, if_pos h]

/-- Witness for C2: a row with blank country is dropped by both loaders, a
bad header empties `loadWorldBank`, and `"NA"` coerces to `none`. -/
theorem claim_C2_loaders_filter_malformed_witness :
    cleanEmRow ⟨some "DEU", some " ", some "2000", none, none, none, none, none,
      none, none, none⟩ = none ∧
    cleanWbRow ⟨some "  ", some "2000-01-01", none, none, none, none, none⟩ = none ∧
    toNumOrNull (some "NA") = none ∧
    loadWorldBank ["country", "date"]
      [⟨some "Germany", some "2000-01-01", none, none, none, none, none⟩] = [] :=
  ⟨(claim_C2_loaders_filter_malformed
      ⟨some "DEU", some " ", some "2000", none, none, none, none, none, none, none, none⟩
      ⟨some "  ", some "2000-01-01", none, none, none, none, none⟩ "NA"
      ["country", "date"]
      [⟨some "Germany", some "2000-01-01", none, none, none, none, none⟩]).1.mpr
      (Or.inr (Or.inl (by decide))),
   (claim_C2_loaders_filter_malformed
      ⟨some "DEU", some " ", some "2000", none, none, none, none, none, none, none, none⟩
      ⟨some "  ", some "2000-01-01", none, none, none, none, none⟩ "NA"
      ["country", "date"]
      [⟨some "Germany", some "2000-01-01", none, none, none, none, none⟩]).2.2.2.1
      (Or.inl (by decide)),
   (claim_C2_loaders_filter_malformed
      ⟨some "DEU", some " ", some "2000", none, none, none, none, none, none, none, none⟩
      ⟨some "  ", some "2000-01-01", none, none, none, none, none⟩ "NA"
      ["country", "date"]
      [⟨some "Germany", some "2000-01-01", none, none, none, none, none⟩]).2.2.2.2.2.1
      (Or.inr (Or.inl (by decide))),
   (claim_C2_loaders_filter_malformed
      ⟨some "DEU", some " ", some "2000", none, none, none, none, none, none, none, none⟩
      ⟨some "  ", some "2000-01-01", none, none, none, none, none⟩ "NA"
      ["country", "date"]
      [⟨some "Germany", some "2000-01-01", none, none, none, none, none⟩]).2.2.2.2.2.2
      (Or.inr (Or.inr ⟨by decide, by decide⟩))⟩

/-- The max-fold bounds every participating element from above. -/
theorem maxFold_bounds {α : Type} (sel : α → ℚ) (xs : List α) (x : α) :
    ∀ a ∈ x :: xs, sel a ≤ sel (maxFold sel x xs) := by
  obtain ⟨l₁, l₂, hl, hle, hlt⟩ := maxFold_decomp sel xs x
  intro a ha
  rw [hl] at ha
  rcases List.mem_append.mp ha with h | h
  · exact hle a h
  rcases List.mem_cons.mp h with rfl | h'
  · exact le_refl _
  · exact le_of_lt (hlt a h')

/-- The min-fold bounds every participating element from below. -/
theorem minFold_bounds {α : Type} (sel : α → ℚ) (xs : List α) (x : α) :
    ∀ a ∈ x :: xs, sel (minFold sel x xs) ≤ sel a := by
  obtain ⟨l₁, l₂, hl, hgt, hge⟩ := minFold_decomp sel xs x
  intro a ha
  rw [hl] at ha
  rcases List.mem_append.mp ha with h | h
  · exact le_of_lt (hgt a h)
  rcases List.mem_cons.mp h with rfl | h'
  · exact le_refl _
  · exact hge a h'

/-- On a non-empty point set `getRange` returns a range that bounds the
selected coordinate of every point. -/
theorem getRange?_some (data : List Line) (sel : Point2D → ℚ)
    (hne : data.flatMap (fun d => d.data) ≠ []) :
    ∃ r, getRange? data sel = some r ∧
      ∀ p ∈ data.flatMap (fun d => d.data), r.start ≤ sel p ∧ sel p ≤ r.stop := by
  match hl : data.flatMap (fun d => d.data), hne with
  | x :: xs, _ =>
    refine ⟨⟨sel (minFold sel x xs), sel (maxFold sel x xs)⟩, ?_, ?_⟩
    · simp only [getRange?, hl, minElement?_cons, maxElement?_cons]
      rfl
    · intro p hp
      exact ⟨minFold_bounds sel xs x p hp, maxFold_bounds sel xs x p hp⟩

/-- C6: with `normalize` and no explicit ranges, `lineChart` rescales every
point by the global min/max of each axis and draws against the fixed
`{start: 0, end: 1}` ranges; when both axes have positive extent every
rescaled coordinate lies in `[0, 1]`. -/
theorem claim_C6_line_chart_normalize (data : List Line)
    (hne : data.flatMap (fun d => d.data) ≠ []) :
    ∃ rx ry,
      getRange? data (fun p => p.x) = some rx ∧
      getRange? data (fun p => p.y) = some ry ∧
      lineChartCore data none none true =
        some
          (data.map (fun line =>
            { data := line.data.map (fun p =>
                { x := (p.x - rx.start) / (rx.stop - rx.start)
                  y := (p.y - ry.start) / (ry.stop - ry.start) }) }),
            { start := 0, stop := 1 }, { start := 0, stop := 1 }) ∧
      (rx.start < rx.stop → ry.start < ry.stop →
        ∀ line ∈ data, ∀ p ∈ line.data,
          0 ≤ (p.x - rx.start) / (rx.stop - rx.start) ∧
          (p.x - rx.start) / (rx.stop - rx.start) ≤ 1 ∧
          0 ≤ (p.y - ry.start) / (ry.stop - ry.start) ∧
          (p.y - ry.start) / (ry.stop - ry.start) ≤ 1) := by
  obtain ⟨rx, hrx, hbx⟩ := getRange?_some data (fun p => p.x) hne
  obtain ⟨ry, hry, hby⟩ := getRange?_some data (fun p => p.y) hne
  refine ⟨rx, ry, hrx, hry, ?_, ?_⟩
  · simp only [lineChartCore, hrx, hry, Option.bind_eq_bind, Option.some_bind,
      reduceIte]
    rfl
  · intro hx hy line hline p hp
    have hpx := hbx p (List.mem_flatMap.mpr ⟨line, hline, hp⟩)
    have hpy := hby p (List.mem_flatMap.mpr ⟨line, hline, hp⟩)
    have hdx : (0 : ℚ) < rx.stop - rx.start := sub_pos.mpr hx
    have hdy : (0 : ℚ) < ry.stop - ry.start := sub_pos.mpr hy
    refine ⟨div_nonneg (sub_nonneg.mpr hpx.1) (le_of_lt hdx), ?_,
      div_nonneg (sub_nonneg.mpr hpy.1) (le_of_lt hdy), ?_⟩
    · exact (div_le_one hdx).mpr (sub_le_sub_right hpx.2 _)
    · exact (div_le_one hdy).mpr (sub_le_sub_right hpy.2 _)

/-- Witness for C6 on one line through `(0,0)` and `(1,1)`. -/
theorem claim_C6_line_chart_normalize_witness :
    lineChartCore [Line.mk [⟨0, 0⟩, ⟨1, 1⟩]] none none true =
      some
        ([Line.mk [⟨((0 : ℚ) - 0) / (1 - 0), ((0 : ℚ) - 0) / (1 - 0)⟩,
            ⟨((1 : ℚ) - 0) / (1 - 0), ((1 : ℚ) - 0) / (1 - 0)⟩]],
          ⟨0, 1⟩, ⟨0, 1⟩) ∧
    0 ≤ ((0 : ℚ) - 0) / (1 - 0) ∧ ((1 : ℚ) - 0) / (1 - 0) ≤ 1 := by
  obtain ⟨rx, ry, hrx, hry, heq, hbd⟩ :=
    claim_C6_line_chart_normalize [Line.mk [⟨0, 0⟩, ⟨1, 1⟩]] (by decide)
  have hrx0 : rx = ⟨0, 1⟩ := by
    have h2 : getRange? [Line.mk [⟨(0 : ℚ), 0⟩, ⟨1, 1⟩]] (fun p => p.x) =
        some ⟨0, 1⟩ := by decide
    exact Option.some_inj.mp (hrx.symm.trans h2)
  have hry0 : ry = ⟨0, 1⟩ := by
    have h2 : getRange? [Line.mk [⟨(0 : ℚ), 0⟩, ⟨1, 1⟩]] (fun p => p.y) =
        some ⟨0, 1⟩ := by decide
    exact Option.some_inj.mp (hry.symm.trans h2)
  subst hrx0
  subst hry0
  have hb := hbd (by decide) (by decide) (Line.mk [⟨0, 0⟩, ⟨1, 1⟩])
    (List.mem_singleton.mpr rfl) ⟨1, 1⟩ (by simp)
  exact ⟨heq, (hbd (by decide) (by decide) (Line.mk [⟨0, 0⟩, ⟨1, 1⟩])
    (List.mem_singleton.mpr rfl) ⟨0, 0⟩ (by simp)).1, hb.2.1⟩

/-- `sharesSum` is the sum of the share components. -/
theorem sharesSum_eq (l : List SourceShare) :
    sharesSum l = (l.map (fun d => d.share)).sum := by
  rw [sharesSum]
  simpa using foldl_add_share l 0

/-- Renormalizing every share divides the share sum. -/
theorem sharesSum_map_div (l : List SourceShare) (S : ℚ) :
    sharesSum (l.map (fun d => { d with share := d.share / S })) = sharesSum l / S := by
  rw [sharesSum_eq, sharesSum_eq]
  induction l with
  | nil => simp
  | cons x t ih =>
    simp only [List.map_cons, List.sum_cons, ih, add_div]

/-- C7: the bar chart is 100%-stacked: `getShares` returns `[]` when the
country is absent or the raw share sum is not positive, otherwise it
renormalizes the shares so they sum to exactly `1` — so the segments
accumulated bottom-up on the `[0, 1]` scale end exactly at `1` — and the
no-data message is shown exactly when both share lists are empty. -/
theorem claim_C7_stacked_bar (emissionsData : List CountrySeries)
    (selectedYear : ℚ) (iso3 : String) (a b : List SourceShare) :
    ((∀ c ∈ emissionsData, c.iso3 ≠ iso3) →
      getShares emissionsData selectedYear iso3 = []) ∧
    (∀ c, emissionsData.find? (fun d => d.iso3 = iso3) = some c →
      (sharesSum (sourceSharesForYear c.points selectedYear) ≤ 0 →
        getShares emissionsData selectedYear iso3 = []) ∧
      (0 < sharesSum (sourceSharesForYear c.points selectedYear) →
        sharesSum (getShares emissionsData selectedYear iso3) = 1 ∧
        (stackBottoms (getShares emissionsData selectedYear iso3)).getLast? =
          some 1)) ∧
    (noDataMessageShown a b = true ↔ a = [] ∧ b = []) := by
  refine ⟨?_, ?_, ?_⟩
  · intro h
    rw [getShares]
    have hn : emissionsData.find? (fun d => d.iso3 = iso3) = none := by
      rw [List.find?_eq_none]
      intro c hc
      simpa using h c hc
    rw [hn]
  · intro c hc
    constructor
    · intro hle
      rw [getShares, hc]
      simp only []
      rw [if_pos hle]
    · intro hpos
      have hne0 : sharesSum (sourceSharesForYear c.points selectedYear) ≠ 0 :=
        ne_of_gt hpos
      have hgs : getShares emissionsData selectedYear iso3 =
          (sourceSharesForYear c.points selectedYear).map
            (fun d => { d with share :=
              d.share / sharesSum (sourceSharesForYear c.points selectedYear) }) := by
        rw [getShares, hc]
        simp only []
        rw [if_neg (not_le.mpr hpos)]
      have hsum : sharesSum (getShares emissionsData selectedYear iso3) = 1 := by
        rw [hgs, sharesSum_map_div]
        exact div_self hne0
      refine ⟨hsum, ?_⟩
      rw [stackBottoms, scanl_add_getLast, ← sharesSum_eq, hsum]
      norm_num
  · simp [noDataMessageShown, List.length_eq_zero]

/-- Witness for C7: one country with a single year-2000 point, `total = 1`,
`coal = 1`, yields renormalized shares summing to `1`. -/
theorem claim_C7_stacked_bar_witness :
    sharesSum (getShares [⟨"DEU", "Germany", [⟨2000, 1, 1, 0, 0, 0, 0, 0, 0⟩]⟩]
      2000 "DEU") = 1 ∧
    (stackBottoms (getShares [⟨"DEU", "Germany", [⟨2000, 1, 1, 0, 0, 0, 0, 0, 0⟩]⟩]
      2000 "DEU")).getLast? = some 1 ∧
    noDataMessageShown [] [] = true := by
  have hth := claim_C7_stacked_bar
    [⟨"DEU", "Germany", [⟨2000, 1, 1, 0, 0, 0, 0, 0, 0⟩]⟩] 2000 "DEU" [] []
  have hfind := hth.2.1 ⟨"DEU", "Germany", [⟨2000, 1, 1, 0, 0, 0, 0, 0, 0⟩]⟩
    (by decide)
  have hpos : 0 < sharesSum (sourceSharesForYear
      [(⟨2000, 1, 1, 0, 0, 0, 0, 0, 0⟩ : YearPoint)] 2000) := by
    show 0 < sharesSum
      [⟨SourceKey.Coal, 1, 1 / 1⟩, ⟨SourceKey.Oil, 0, 0 / 1⟩,
       ⟨SourceKey.Gas, 0, 0 / 1⟩, ⟨SourceKey.Cement, 0, 0 / 1⟩,
       ⟨SourceKey.Flaring, 0, 0 / 1⟩, ⟨SourceKey.Other, 0, 0 / 1⟩]
    simp [sharesSum]
  obtain ⟨hs, hb⟩ := hfind.2 hpos
  exact ⟨hs, hb, hth.2.2.mpr ⟨rfl, rfl⟩⟩

/-- `loadEmissions` unfolded to its clean-group-sort pipeline. -/
theorem loadEmissions_eq (rows : List EmRow) :
    loadEmissions rows =
      List.insertionSort countryLe
        ((groupByKey (fun d => d.iso3) (rows.filterMap cleanEmRow)).map (fun g =>
          { iso3 := g.1
            country := match g.2 with | [] => g.1 | h :: _ => h.country
            points := List.insertionSort yearLe (g.2.map (fun d => d.point)) })) := rfl

/-- The `loadWorldBank` pipeline when rows exist and the header is sane. -/
theorem loadWorldBank_eq (cols : List String) (rows : List WbRow)
    (h0 : rows.length ≠ 0) (hc : cols.contains "country" = true)
    (hd : cols.contains "date" = true)
    (hg : cols.contains "GDP_current_US" = true ∨ cols.contains "population" = true) :
    loadWorldBank cols rows =
      List.insertionSort wbCountryLe
        ((groupByKey (fun d => d.country) (rows.filterMap cleanWbRow)).map (fun g =>
          { country := g.1
            points := List.insertionSort wbYearLe (g.2.map (fun d => d.point)) })) := by
  have hcond : ¬ (¬ (cols.contains "country" = true) ∨ ¬ (cols.contains "date" = true) ∨
      (¬ (cols.contains "GDP_current_US" = true) ∧
        ¬ (cols.contains "population" = true))) := by
    push_neg
    exact ⟨hc, hd, fun hng => hg.resolve_left hng⟩
  simp only [loadWorldBank]
  rw [if_neg h0, if_neg hcond]

/-- `loadWorldBank` either bails out to `[]` or runs the full pipeline. -/
theorem loadWorldBank_cases (cols : List String) (rows : List WbRow) :
    loadWorldBank cols rows = [] ∨
    loadWorldBank cols rows =
      List.insertionSort wbCountryLe
        ((groupByKey (fun d => d.country) (rows.filterMap cleanWbRow)).map (fun g =>
          { country := g.1
            points := List.insertionSort wbYearLe (g.2.map (fun d => d.point)) })) := by
  by_cases h0 : rows.length = 0
  · left
    simp only [loadWorldBank]
    rw [if_pos h0]
  · by_cases hcond : ¬ (cols.contains "country" = true) ∨
        ¬ (cols.contains "date" = true) ∨
        (¬ (cols.contains "GDP_current_US" = true) ∧
          ¬ (cols.contains "population" = true))
    · left
      simp only [loadWorldBank]
      rw [if_neg h0, if_pos hcond]
    · right
      push_neg at hcond
      exact loadWorldBank_eq cols rows h0 hcond.1 hcond.2.1
        (or_iff_not_imp_left.mpr hcond.2.2)

/-- C3: the loaders' outputs are sorted by country name under the
(idealized) `localeCompare` order and every series' points are in ascending
year order. -/
theorem claim_C3_outputs_sorted (rows : List EmRow) (cols : List String)
    (wrows : List WbRow) :
    (loadEmissions rows).Sorted countryLe ∧
    (∀ s ∈ loadEmissions rows, s.points.Sorted yearLe) ∧
    (loadWorldBank cols wrows).Sorted wbCountryLe ∧
    (∀ s ∈ loadWorldBank cols wrows, s.points.Sorted wbYearLe) := by
  refine ⟨?_, ?_, ?_, ?_⟩
  · rw [loadEmissions_eq]
    exact List.sorted_insertionSort countryLe _
  · intro s hs
    rw [loadEmissions_eq] at hs
    have hs' := (List.perm_insertionSort countryLe _).mem_iff.mp hs
    obtain ⟨g, _hg, rfl⟩ := List.mem_map.mp hs'
    exact List.sorted_insertionSort yearLe _
  · rcases loadWorldBank_cases cols wrows with h | h
    · rw [h]
      exact List.sorted_nil
    · rw [h]
      exact List.sorted_insertionSort wbCountryLe _
  · intro s hs
    rcases loadWorldBank_cases cols wrows with h | h
    · rw [h] at hs
      simp at hs
    · rw [h] at hs
      have hs' := (List.perm_insertionSort wbCountryLe _).mem_iff.mp hs
      obtain ⟨g, _hg, rfl⟩ := List.mem_map.mp hs'
      exact List.sorted_insertionSort wbYearLe _

/-- C4: the loaders group the kept rows by key: exactly one series per
distinct key among the kept rows, each series' points are exactly (up to
the year sort) the points of the rows carrying its key, and the emissions
series' country name comes from the first kept row of its group. -/
theorem claim_C4_grouping (rows : List EmRow) (cols : List String)
    (wrows : List WbRow) :
    (∀ k : String,
      (loadEmissions rows).countP (fun s => s.iso3 = k) =
        if k ∈ (rows.filterMap cleanEmRow).map (fun d => d.iso3) then 1 else 0) ∧
    (∀ s ∈ loadEmissions rows,
      s.points.Perm
        (((rows.filterMap cleanEmRow).filter (fun d => d.iso3 = s.iso3)).map
          (fun d => d.point)) ∧
      ∀ t, (rows.filterMap cleanEmRow).find? (fun d => d.iso3 = s.iso3) = some t →
        s.country = t.country) ∧
    (wrows.length ≠ 0 →
      cols.contains "country" = true → cols.contains "date" = true →
      (cols.contains "GDP_current_US" = true ∨ cols.contains "population" = true) →
      (∀ k : String,
        (loadWorldBank cols wrows).countP (fun s => s.country = k) =
          if k ∈ (wrows.filterMap cleanWbRow).map (fun d => d.country) then 1
          else 0) ∧
      ∀ s ∈ loadWorldBank cols wrows,
        s.points.Perm
          (((wrows.filterMap cleanWbRow).filter (fun d => d.country = s.country)).map
            (fun d => d.point))) := by
  refine ⟨?_, ?_, ?_⟩
  · intro k
    rw [loadEmissions_eq]
    rw [(List.perm_insertionSort countryLe _).countP_eq]
    rw [List.countP_map, groupByKey, List.countP_map]
    have hsh : (List.countP
        (fun x => decide (x = k)) (firstOccKeys (fun d => d.iso3)
          (rows.filterMap cleanEmRow))) =
        if k ∈ firstOccKeys (fun d => d.iso3) (rows.filterMap cleanEmRow) then 1
        else 0 :=
      countP_eq_of_nodup (nodup_firstOccKeys _ _) k
    refine Eq.trans (Eq.trans rfl hsh) ?_
    by_cases hk : k ∈ (rows.filterMap cleanEmRow).map (fun d => d.iso3)
    · rw [if_pos ((mem_firstOccKeys _ _ k).mpr hk), if_pos hk]
    · rw [if_neg (fun hc => hk ((mem_firstOccKeys _ _ k).mp hc)), if_neg hk]
  · intro s hs
    rw [loadEmissions_eq] at hs
    have hs' := (List.perm_insertionSort countryLe _).mem_iff.mp hs
    obtain ⟨g, hg, rfl⟩ := List.mem_map.mp hs'
    rw [groupByKey] at hg
    obtain ⟨k', hk', rfl⟩ := List.mem_map.mp hg
    constructor
    · exact List.perm_insertionSort yearLe _
    · intro t ht
      have hkmem := (mem_firstOccKeys (fun d => d.iso3)
        (rows.filterMap cleanEmRow) k').mp hk'
      obtain ⟨d, hd, hdk⟩ := List.mem_map.mp hkmem
      have hdmem : d ∈ (rows.filterMap cleanEmRow).filter
          (fun x => decide ((fun d => d.iso3) x = k')) :=
        List.mem_filter.mpr ⟨hd, by simpa using hdk⟩
      obtain ⟨h, rest, hfil⟩ : ∃ h rest,
          (rows.filterMap cleanEmRow).filter
            (fun x => decide ((fun d => d.iso3) x = k')) = h :: rest := by
        rcases hf : (rows.filterMap cleanEmRow).filter
            (fun x => decide ((fun d => d.iso3) x = k')) with _ | ⟨h, r⟩
        · rw [hf] at hdmem
          simp at hdmem
        · exact ⟨h, r, hf⟩
      have hfind : (rows.filterMap cleanEmRow).find?
          (fun x => decide ((fun d => d.iso3) x = k')) = some h := by
        rw [← List.filter_head?, hfil]
        rfl
      have hht : h = t := by
        have ht' : (rows.filterMap cleanEmRow).find?
            (fun x => decide ((fun d => d.iso3) x = k')) = some t := ht
        exact Option.some_inj.mp (hfind.symm.trans ht')
      show (match (rows.filterMap cleanEmRow).filter
          (fun x => decide ((fun d => d.iso3) x = k')) with
        | [] => k'
        | h :: _ => h.country) = t.country
      rw [hfil, hht]
  · intro h0 hc hd hg
    have heq := loadWorldBank_eq cols wrows h0 hc hd hg
    constructor
    · intro k
      rw [heq]
      rw [(List.perm_insertionSort wbCountryLe _).countP_eq]
      rw [List.countP_map, groupByKey, List.countP_map]
      have hsh : (List.countP
          (fun x => decide (x = k)) (firstOccKeys (fun d => d.country)
            (wrows.filterMap cleanWbRow))) =
          if k ∈ firstOccKeys (fun d => d.country) (wrows.filterMap cleanWbRow)
          then 1 else 0 :=
        countP_eq_of_nodup (nodup_firstOccKeys _ _) k
      refine Eq.trans (Eq.trans rfl hsh) ?_
      by_cases hk : k ∈ (wrows.filterMap cleanWbRow).map (fun d => d.country)
      · rw [if_pos ((mem_firstOccKeys _ _ k).mpr hk), if_pos hk]
      · rw [if_neg (fun hcnt => hk ((mem_firstOccKeys _ _ k).mp hcnt)), if_neg hk]
    · intro s hs
      rw [heq] at hs
      have hs' := (List.perm_insertionSort wbCountryLe _).mem_iff.mp hs
      obtain ⟨g, hg', rfl⟩ := List.mem_map.mp hs'
      rw [groupByKey] at hg'
      obtain ⟨k', _hk', rfl⟩ := List.mem_map.mp hg'
      exact List.perm_insertionSort wbYearLe _

/-- Witness for C3: one concrete emissions row produces a sorted output
whose single series has year-sorted points. -/
theorem claim_C3_outputs_sorted_witness :
    (loadEmissions [⟨some "DEU", some "Germany", some "2000", none, none, none,
      none, none, none, none, none⟩]).Sorted countryLe ∧
    (⟨"DEU", "Germany", [⟨2000, 0, 0, 0, 0, 0, 0, 0, 0⟩]⟩ :
      CountrySeries).points.Sorted yearLe :=
  ⟨(claim_C3_outputs_sorted [⟨some "DEU", some "Germany", some "2000", none, none,
      none, none, none, none, none, none⟩] [] []).1,
   (claim_C3_outputs_sorted [⟨some "DEU", some "Germany", some "2000", none, none,
      none, none, none, none, none, none⟩] [] []).2.1
     ⟨"DEU", "Germany", [⟨2000, 0, 0, 0, 0, 0, 0, 0, 0⟩]⟩ (by decide)⟩

/-- Witness for C4: concrete one-row inputs for both loaders give exactly
one group for the kept key. -/
theorem claim_C4_grouping_witness :
    ((loadEmissions [⟨some "FRA", some "France", some "1999", none, none, none,
      none, none, none, none, none⟩]).countP (fun s => s.iso3 = "FRA") =
      if "FRA" ∈ (([⟨some "FRA", some "France", some "1999", none, none, none,
        none, none, none, none, none⟩] : List EmRow).filterMap cleanEmRow).map
          (fun d => d.iso3) then 1 else 0) ∧
    ((loadWorldBank ["country", "date", "population"]
        [⟨some "France", some "1999", none, none, none, none, none⟩]).countP
          (fun s => s.country = "France") =
      if "France" ∈ (([⟨some "France", some "1999", none, none, none, none,
        none⟩] : List WbRow).filterMap cleanWbRow).map (fun d => d.country)
      then 1 else 0) :=
  ⟨(claim_C4_grouping [⟨some "FRA", some "France", some "1999", none, none, none,
      none, none, none, none, none⟩] ["country", "date", "population"]
      [⟨some "France", some "1999", none, none, none, none, none⟩]).1 "FRA",
   ((claim_C4_grouping [⟨some "FRA", some "France", some "1999", none, none, none,
      none, none, none, none, none⟩] ["country", "date", "population"]
      [⟨some "France", some "1999", none, none, none, none, none⟩]).2.2
     (by decide) (by decide) (by decide) (Or.inr (by decide))).1 "France"⟩

end InfoViz
